import Mathlib

/-!
Verification of the INFOBoard collaborative-canvas core against its
specification.  The definitions below are a shallow embedding of
`src/collab/consumers.py`: Python dicts holding drawable elements become a
Lean structure with the fields the code reads (`id`, `version`,
`isDeleted`); the Django room store becomes an association list of `Room`
records; the asynchronous handlers become pure functions from their inputs
to the list of externally visible effects they issue (broadcasts, log
appends, room writes, connection management).
-/

namespace INFOBoard

/-- A drawable element as `save_room` sees it: the code reads `e['id']`,
`e['version']` and `e.get('isDeleted', False)`.  `isDeleted = false` models a
dict where the key is absent or set to `False`. -/
structure Element where
  id : String
  version : Int
  isDeleted : Bool
  deriving DecidableEq, Repr

/-- A persisted room: `room_name` plus the latest reconciled element
collection.  Modelled from the spec: the `ExcalidrawRoom` model itself is not
under `src/`; per the spec the Room Snapshot Store maps a room identifier to
the latest reconciled element set, and a freshly created room has no prior
snapshot (empty collection).  `dump_content` / the `elements` property are the
store's (de)serialisation round-trip and are modelled as the identity. -/
structure Room where
  room_name : String
  elements : List Element
  deriving DecidableEq, Repr

/-- The room store: the set of persisted `Room` rows. -/
abbrev RoomStore := List Room

/-- Row lookup by `room_name` (the unique key of the store). -/
def findRoom (db : RoomStore) (name : String) : Option Room :=
  db.find? (fun r => r.room_name == name)

/-- Modelled from the spec: Django's `get_or_create` on the room store
(`get_or_create_room` in the source).  Returns the found or created row, the
`created` flag, and the store after the call; a created row starts with no
snapshot. -/
def get_or_create_room (db : RoomStore) (name : String) : Room × Bool × RoomStore :=
  match findRoom db name with
  | some r => (r, false, db)
  | none => (⟨name, []⟩, true, db ++ [⟨name, []⟩])

/-- Modelled from the spec: Django's `update_or_create` with
`defaults={'_elements': elements}` (`upsert_room` in the source): overwrite
the row's element collection wholesale, creating the row if absent. -/
def upsert_room (db : RoomStore) (name : String) (els : List Element) : RoomStore :=
  if (findRoom db name).isSome then
    db.map (fun r => if r.room_name == name then { r with elements := els } else r)
  else
    db ++ [⟨name, els⟩]

/-- The dict comprehension `{e['id']: e['version'] for e in old_room.elements}`:
maps an id to the version of the last element carrying it (later entries of a
Python dict comprehension overwrite earlier ones). -/
def dictVersions (els : List Element) (i : String) : Option Int :=
  (els.reverse.find? (fun e => e.id == i)).map (fun e => e.version)

/-- The lookup `old_room_versions.get(e['id'], -1)`. -/
def oldVersionOf (els : List Element) (i : String) : Int :=
  (dictVersions els i).getD (-1)

/-- The `for e in elements:` loop of `save_room` over the delete-filtered
incoming elements.  `none` models the early `return` taken when a persisted
version is strictly greater than an incoming one; `some diff` is the final
value of `differences_detected` when the loop runs to completion. -/
def checkLoop (oldv : String → Int) : List Element → Bool → Option Bool
  | [], diff => some diff
  | e :: rest, diff =>
    if oldv e.id > e.version then none
    else checkLoop oldv rest (diff || decide (oldv e.id < e.version))

/-- `CollaborationConsumer.save_room` (consumers.py lines 138-172) as a store
transformer.  Fetch-or-create the room, filter out tombstoned elements, run
the version check loop (skipped when the room was just created, leaving
`differences_detected` as `False`), and overwrite the snapshot wholesale only
when a difference was detected. -/
def save_room (db : RoomStore) (room_name : String) (elements : List Element) :
    RoomStore :=
  let goc := get_or_create_room db room_name
  let old_room := goc.1
  let created := goc.2.1
  let db1 := goc.2.2
  let els := elements.filter (fun e => !e.isDeleted)
  let outcome : Option Bool :=
    if created then some false
    else checkLoop (oldVersionOf old_room.elements) els false
  match outcome with
  | none => db1
  | some false => db1
  | some true => upsert_room db1 room_name els

/-! Helper lemmas about the reconciler. -/

/-- Unfolding of `save_room` when the room already exists in the store. -/
lemma save_room_found (db : RoomStore) (name : String) (els : List Element)
    (old : Room) (h : findRoom db name = some old) :
    save_room db name els =
      match checkLoop (oldVersionOf old.elements)
          (els.filter (fun e => !e.isDeleted)) false with
      | none => db
      | some false => db
      | some true => upsert_room db name (els.filter (fun e => !e.isDeleted)) := by
  simp [save_room, get_or_create_room, h]

/-- Unfolding of `save_room` when the room is freshly created: the row is
inserted with an empty snapshot and, the check loop being skipped,
`differences_detected` stays `false`, so no write happens. -/
lemma save_room_notfound (db : RoomStore) (name : String) (els : List Element)
    (h : findRoom db name = none) :
    save_room db name els = db ++ [⟨name, []⟩] := by
  simp [save_room, get_or_create_room, h]

/-- If some element of the list is stale (persisted version strictly greater),
the check loop returns through the early-exit path. -/
lemma checkLoop_eq_none_of_stale (oldv : String → Int) (lst : List Element)
    (d : Bool) (h : ∃ e ∈ lst, oldv e.id > e.version) :
    checkLoop oldv lst d = none := by
  induction lst generalizing d with
  | nil => rcases h with ⟨e, he, -⟩; cases he
  | cons a rest ih =>
    rcases h with ⟨e, he, hgt⟩
    rcases List.mem_cons.mp he with rfl | hmem
    · simp [checkLoop, hgt]
    · by_cases hc : oldv a.id > a.version
      · simp [checkLoop, hc]
      · simpa [checkLoop, hc] using ih _ ⟨e, hmem, hgt⟩

/-- If the check loop runs to completion, no element of the list was stale. -/
lemma checkLoop_le_of_eq_some (oldv : String → Int) (lst : List Element)
    (d b : Bool) (h : checkLoop oldv lst d = some b) :
    ∀ e ∈ lst, oldv e.id ≤ e.version := by
  induction lst generalizing d with
  | nil => intro e he; cases he
  | cons a rest ih =>
    intro e he
    by_cases hc : oldv a.id > a.version
    · simp [checkLoop, hc] at h
    · rcases List.mem_cons.mp he with rfl | hmem
      · exact le_of_not_lt hc
      · simp only [checkLoop, if_neg hc] at h
        exact ih _ h e hmem

/-- A successful dict lookup comes from an element of the collection. -/
lemma dictVersions_mem (els : List Element) (i : String) (v : Int)
    (h : dictVersions els i = some v) :
    ∃ e ∈ els, e.id = i ∧ e.version = v := by
  unfold dictVersions at h
  cases hf : els.reverse.find? (fun e => e.id == i) with
  | none => rw [hf] at h; cases h
  | some e =>
    rw [hf] at h
    have hmem : e ∈ els := List.mem_reverse.mp (List.mem_of_find?_eq_some hf)
    have hid := List.find?_some hf
    exact ⟨e, hmem, by simpa using hid, by simpa using h⟩

/-- Mapping the wholesale-update function over the store rewrites the row
carrying the key and leaves lookup pointing at it. -/
lemma findRoom_map_update (db : RoomStore) (name : String) (els : List Element)
    (old : Room) (h : findRoom db name = some old) :
    findRoom
        (db.map (fun r =>
          if r.room_name == name then { r with elements := els } else r)) name
      = some ⟨name, els⟩ := by
  induction db with
  | nil => cases h
  | cons r rest ih =>
    cases hr : (r.room_name == name) with
    | true =>
      have hname : r.room_name = name := by simpa using hr
      unfold findRoom
      rw [List.map_cons, List.find?_cons]
      simp [hr, hname]
    | false =>
      have h' : findRoom rest name = some old := by
        unfold findRoom at h ⊢
        rw [List.find?_cons, hr] at h
        exact h
      have hrest := ih h'
      unfold findRoom at hrest ⊢
      rw [List.map_cons, List.find?_cons]
      simpa [hr] using hrest

/-- Updating an existing row: after `upsert_room`, looking the key up yields
the row with the new element collection. -/
lemma findRoom_upsert (db : RoomStore) (name : String) (els : List Element)
    (old : Room) (h : findRoom db name = some old) :
    findRoom (upsert_room db name els) name = some ⟨name, els⟩ := by
  have hm := findRoom_map_update db name els old h
  unfold upsert_room
  rw [h]
  simpa using hm

/-- Elements surviving the tombstone filter are not deleted. -/
lemma not_deleted_of_mem_filter (els : List Element) (e : Element)
    (h : e ∈ els.filter (fun e => !e.isDeleted)) : e.isDeleted = false := by
  have := (List.mem_filter.mp h).2
  simpa using this

/-- On an existing key, `upsert_room` is the wholesale row update. -/
lemma upsert_room_found_eq (db : RoomStore) (name : String) (els : List Element)
    (h : (findRoom db name).isSome) :
    upsert_room db name els =
      db.map (fun r =>
        if r.room_name == name then { r with elements := els } else r) := by
  simp [upsert_room, h]

/-! Claims about the reconciler. -/

/-- Claim C1: the spec states that on a freshly created room every incoming
version is treated as superseding and the delete-filtered incoming collection
is persisted.  The code disagrees: when `created` is true the version loop is
skipped, `differences_detected` stays `False`, and `save_room` returns before
any write, so the new room row keeps an empty snapshot.  This theorem
evaluates the code at the failing input: a first `save_room` on a fresh room
with one live element persists nothing. -/
theorem C1_fresh_room_not_persisted :
    save_room [] "room1" [⟨"a", 1, false⟩] = [⟨"room1", []⟩] ∧
    (findRoom (save_room [] "room1" [⟨"a", 1, false⟩]) "room1").map Room.elements
      = some [] := by
  exact ⟨rfl, rfl⟩

/-- Claim C2: on an existing room, if some incoming non-deleted element's
version is strictly less than the persisted version for its id, the store is
left completely unchanged — no element of the incoming collection, new ids
included, is persisted. -/
theorem C2_stale_write_rejected (db : RoomStore) (name : String)
    (els : List Element) (old : Room) (e : Element) (v : Int)
    (hfound : findRoom db name = some old)
    (he : e ∈ els) (hdel : e.isDeleted = false)
    (hv : dictVersions old.elements e.id = some v)
    (hlt : e.version < v) :
    save_room db name els = db := by
  rw [save_room_found db name els old hfound]
  have hmemf : e ∈ els.filter (fun e => !e.isDeleted) :=
    List.mem_filter.mpr ⟨he, by simp [hdel]⟩
  have hstale : oldVersionOf old.elements e.id > e.version := by
    unfold oldVersionOf
    rw [hv]
    simpa using hlt
  rw [checkLoop_eq_none_of_stale _ _ _ ⟨e, hmemf, hstale⟩]

/-- Witness for C2 at the spec's own example: persisted `{id:a, version:5}`,
incoming `{id:a, version:4}` and `{id:b, version:10}` — nothing is written. -/
theorem C2_stale_write_rejected_witness :
    save_room [⟨"r", [⟨"a", 5, false⟩]⟩] "r" [⟨"a", 4, false⟩, ⟨"b", 10, false⟩]
      = [⟨"r", [⟨"a", 5, false⟩]⟩] :=
  C2_stale_write_rejected _ "r" _ ⟨"r", [⟨"a", 5, false⟩]⟩ ⟨"a", 4, false⟩ 5
    rfl (by decide) rfl rfl (by decide)

/-- Claim C3 counterexample: persisted versions are not non-decreasing over a
sequence of `save_room` calls.  Starting from an empty store, the sequence
saves `{a:5}` (twice — the first call only creates the row), then `{b:1}`
(an accepted wholesale overwrite that drops `a`), then `{a:2}`.  Id `a` is
persisted with version 5 at an earlier point and version 2 at a later point. -/
theorem C3_version_decrease_counterexample :
    (findRoom (save_room (save_room [] "r" [⟨"a", 5, false⟩]) "r"
        [⟨"a", 5, false⟩]) "r").map (fun r => dictVersions r.elements "a")
      = some (some 5) ∧
    (findRoom (save_room (save_room (save_room (save_room [] "r"
        [⟨"a", 5, false⟩]) "r" [⟨"a", 5, false⟩]) "r" [⟨"b", 1, false⟩]) "r"
        [⟨"a", 2, false⟩]) "r").map (fun r => dictVersions r.elements "a")
      = some (some 2) ∧
    ¬ ((5 : Int) ≤ 2) := by
  decide

/-- Claim C3 as amended: monotonicity holds across each single `save_room`
call — an id persisted both immediately before and immediately after one call
never has its version decreased by that call.  (Over a whole sequence the
property fails only when an id leaves the snapshot and is later re-introduced
with a lower version, as the counterexample shows.) -/
theorem C3_single_call_version_monotone (db : RoomStore) (name : String)
    (els : List Element) (old new : Room) (i : String) (v w : Int)
    (hold : findRoom db name = some old)
    (hnew : findRoom (save_room db name els) name = some new)
    (hv : dictVersions old.elements i = some v)
    (hw : dictVersions new.elements i = some w) :
    v ≤ w := by
  rw [save_room_found db name els old hold] at hnew
  cases hc : checkLoop (oldVersionOf old.elements)
      (els.filter (fun e => !e.isDeleted)) false with
  | none =>
    rw [hc] at hnew
    have hsame : findRoom db name = some new := hnew
    rw [hold] at hsame
    obtain rfl : old = new := Option.some.inj hsame
    rw [hv] at hw
    exact le_of_eq (Option.some.inj hw)
  | some b =>
    cases b with
    | false =>
      rw [hc] at hnew
      have hsame : findRoom db name = some new := hnew
      rw [hold] at hsame
      obtain rfl : old = new := Option.some.inj hsame
      rw [hv] at hw
      exact le_of_eq (Option.some.inj hw)
    | true =>
      rw [hc, findRoom_upsert db name _ old hold] at hnew
      obtain rfl : (⟨name, els.filter (fun e => !e.isDeleted)⟩ : Room) = new :=
        Option.some.inj hnew
      obtain ⟨e, hmem, hid, hver⟩ := dictVersions_mem _ i w hw
      have hle := checkLoop_le_of_eq_some _ _ _ _ hc e hmem
      rw [hid] at hle
      have hv' : oldVersionOf old.elements i = v := by
        unfold oldVersionOf
        rw [hv]
        rfl
      rw [hv', hver] at hle
      exact hle

/-- Witness for the amended C3: updating `{a:5}` to `{a:6}` keeps the version
non-decreasing across the call. -/
theorem C3_single_call_version_monotone_witness :
    findRoom [⟨"r", [⟨"a", 5, false⟩]⟩] "r" = some ⟨"r", [⟨"a", 5, false⟩]⟩ ∧
    findRoom (save_room [⟨"r", [⟨"a", 5, false⟩]⟩] "r" [⟨"a", 6, false⟩]) "r"
      = some ⟨"r", [⟨"a", 6, false⟩]⟩ ∧
    dictVersions [⟨"a", 5, false⟩] "a" = some 5 ∧
    dictVersions [⟨"a", 6, false⟩] "a" = some 6 ∧
    (5 : Int) ≤ 6 :=
  ⟨rfl, by decide, rfl, rfl,
    C3_single_call_version_monotone [⟨"r", [⟨"a", 5, false⟩]⟩] "r"
      [⟨"a", 6, false⟩] ⟨"r", [⟨"a", 5, false⟩]⟩ ⟨"r", [⟨"a", 6, false⟩]⟩ "a" 5 6
      rfl (by decide) rfl rfl⟩

/-- Claim C4 counterexample: an accepted write does not preserve the persisted
id set.  Persisted `{a:5}`, incoming `{b:1}`: the write is accepted (the store
changes) and the snapshot afterwards is exactly `{b:1}` — id `a` is lost. -/
theorem C4_id_dropped_counterexample :
    save_room [⟨"r", [⟨"a", 5, false⟩]⟩] "r" [⟨"b", 1, false⟩]
      = [⟨"r", [⟨"b", 1, false⟩]⟩] ∧
    "a" ∈ ([⟨"a", 5, false⟩] : List Element).map Element.id ∧
    "a" ∉ ([⟨"b", 1, false⟩] : List Element).map Element.id ∧
    save_room [⟨"r", [⟨"a", 5, false⟩]⟩] "r" [⟨"b", 1, false⟩]
      ≠ [⟨"r", [⟨"a", 5, false⟩]⟩] := by
  decide

/-- Claim C4 as amended: a `save_room` call on an existing room either leaves
the store unchanged, or wholesale-replaces the room's snapshot with exactly
the delete-filtered incoming collection — so the resulting id set is the set
of incoming non-deleted ids, and ids not resubmitted are dropped (no delete
markers are ever stored). -/
theorem C4_accepted_write_is_wholesale (db : RoomStore) (name : String)
    (els : List Element) (old : Room)
    (hold : findRoom db name = some old) :
    save_room db name els = db ∨
    findRoom (save_room db name els) name
      = some ⟨name, els.filter (fun e => !e.isDeleted)⟩ := by
  cases hc : checkLoop (oldVersionOf old.elements)
      (els.filter (fun e => !e.isDeleted)) false with
  | none =>
    left
    rw [save_room_found db name els old hold, hc]
  | some b =>
    cases b with
    | false =>
      left
      rw [save_room_found db name els old hold, hc]
    | true =>
      right
      rw [save_room_found db name els old hold, hc]
      exact findRoom_upsert db name _ old hold

/-- Witness for the amended C4: overwriting `{a:5}` with `{b:1}` lands in the
wholesale-replacement branch. -/
theorem C4_accepted_write_is_wholesale_witness :
    findRoom [⟨"r", [⟨"a", 5, false⟩]⟩] "r" = some ⟨"r", [⟨"a", 5, false⟩]⟩ ∧
    (save_room [⟨"r", [⟨"a", 5, false⟩]⟩] "r" [⟨"b", 1, false⟩]
        = [⟨"r", [⟨"a", 5, false⟩]⟩] ∨
      findRoom (save_room [⟨"r", [⟨"a", 5, false⟩]⟩] "r" [⟨"b", 1, false⟩]) "r"
        = some ⟨"r", ([⟨"b", 1, false⟩] : List Element).filter
            (fun e => !e.isDeleted)⟩) :=
  ⟨rfl, C4_accepted_write_is_wholesale [⟨"r", [⟨"a", 5, false⟩]⟩] "r"
    [⟨"b", 1, false⟩] ⟨"r", [⟨"a", 5, false⟩]⟩ rfl⟩

/-- Claim C5: an incoming tombstoned element (`isDeleted = true`) never
appears in any persisted snapshot after the call — first creation included.
The hypothesis is the store invariant that persisted snapshots contain no
tombstones, which every `save_room` write preserves (writes go through the
delete filter) and which holds for the empty initial store. -/
theorem C5_deleted_never_persisted (db : RoomStore) (name : String)
    (els : List Element)
    (hinv : ∀ r ∈ db, ∀ x ∈ r.elements, x.isDeleted = false) :
    ∀ e ∈ els, e.isDeleted = true →
      ∀ r ∈ save_room db name els, e ∉ r.elements := by
  have hres : ∀ r ∈ save_room db name els, ∀ x ∈ r.elements,
      x.isDeleted = false := by
    cases hfind : findRoom db name with
    | none =>
      rw [save_room_notfound db name els hfind]
      intro r hr x hx
      rcases List.mem_append.mp hr with hdb | hnew
      · exact hinv r hdb x hx
      · obtain rfl : r = ⟨name, []⟩ := List.mem_singleton.mp hnew
        cases hx
    | some old =>
      rw [save_room_found db name els old hfind]
      cases hc : checkLoop (oldVersionOf old.elements)
          (els.filter (fun e => !e.isDeleted)) false with
      | none =>
        exact fun r hr x hx => hinv r hr x hx
      | some b =>
        cases b with
        | false =>
          exact fun r hr x hx => hinv r hr x hx
        | true =>
          show ∀ r ∈ upsert_room db name (els.filter (fun e => !e.isDeleted)),
            ∀ x ∈ r.elements, x.isDeleted = false
          rw [upsert_room_found_eq db name _ (by rw [hfind]; rfl)]
          intro r hr x hx
          rcases List.mem_map.mp hr with ⟨r0, hr0, rfl⟩
          by_cases hmatch : (r0.room_name == name) = true
          · rw [if_pos hmatch] at hx
            exact not_deleted_of_mem_filter els x hx
          · rw [if_neg hmatch] at hx
            exact hinv r0 hr0 x hx
  intro e he hdel r hr hmem
  have hfalse := hres r hr e hmem
  rw [hdel] at hfalse
  cases hfalse

/-- Witness for C5: a tombstoned element submitted to a fresh room never shows
up in the persisted store. -/
theorem C5_deleted_never_persisted_witness :
    (∀ r ∈ ([] : RoomStore), ∀ x ∈ r.elements, x.isDeleted = false) ∧
    (∀ e ∈ [(⟨"c", 1, true⟩ : Element)], e.isDeleted = true →
      ∀ r ∈ save_room [] "r" [⟨"c", 1, true⟩], e ∉ r.elements) :=
  ⟨by simp, C5_deleted_never_persisted [] "r" [⟨"c", 1, true⟩] (by simp)⟩

/-! Handlers as effect producers.  Each asynchronous handler of
`CollaborationConsumer` is embedded as a pure function from its inputs to the
list of externally visible actions it performs. -/

/-- A collaborator-change record: a Python dict, embedded as an association
list from field name to field value. -/
abbrev ChangeRec := List (String × String)

/-- Dict deletion (`del change[k]` / `change.pop(k, None)`): drop the key. -/
def delKey (c : ChangeRec) (k : String) : ChangeRec :=
  c.filter (fun p => p.1 ≠ k)

/-- Dict lookup: the value stored under a key, if any. -/
def getKey (c : ChangeRec) (k : String) : Option String :=
  (c.find? (fun p => p.1 == k)).map (fun p => p.2)

/-- Dict assignment (`d[k] = v`): replace the value if the key exists, else
append the new entry. -/
def setKey (c : ChangeRec) (k v : String) : ChangeRec :=
  if (getKey c k).isSome then
    c.map (fun p => if p.1 == k then (k, v) else p)
  else
    c ++ [(k, v)]

/-- An `ExcalidrawLogRecord` payload: either a full element collection
(`elements_changed` / `full_sync`) or a single collaborator-change record. -/
inductive LogContent where
  | elems (els : List Element)
  | changeRec (c : ChangeRec)
  deriving DecidableEq, Repr

/-- An `ExcalidrawLogRecord` as created by the handlers.  `created_at = some t`
models a parsed client-supplied `time` value, `none` models the server-receipt
time `now()`. -/
structure LogRecord where
  room_name : String
  event_type : String
  user_pseudonym : String
  created_at : Option String
  content : LogContent
  deriving DecidableEq, Repr

/-- The payload carried by an outbound broadcast envelope. -/
inductive Payload where
  | elems (els : List Element)
  | changeList (cs : List ChangeRec)
  | collaborator (userRoomId : String)
  deriving DecidableEq, Repr

/-- An externally visible action of a handler: a group broadcast
(`send_event`), an append to the event log, a room snapshot write
(`save_room`'s store update), a direct send to the attached client
(`send_json`), broadcast-group registration, or connection management. -/
inductive Effect where
  | sendEvent (eventtype : String) (payload : Payload)
  | logAppend (record : LogRecord)
  | roomWrite (room_name : String) (els : List Element)
  | sendJson (eventtype : String)
  | groupAdd
  | groupDiscard
  | acceptConn
  | closeConn (code : Int)
  deriving DecidableEq, Repr

/-- `CollaborationConsumer.elements_changed` (consumers.py lines 124-136):
build one log record carrying the whole element collection and broadcast the
collection to the room, concurrently (`gather`). -/
def elements_changed (user_room_id room_name eventtype : String)
    (elements : List Element) : List Effect :=
  [ Effect.sendEvent eventtype (Payload.elems elements),
    Effect.logAppend ⟨room_name, eventtype, user_room_id, none,
      LogContent.elems elements⟩ ]

/-- `CollaborationConsumer.full_sync` (consumers.py lines 115-122): delegates
to `elements_changed`; the `save_room` call is commented out in the source. -/
def full_sync (user_room_id room_name eventtype : String)
    (elements : List Element) : List Effect :=
  elements_changed user_room_id room_name eventtype elements

/-- `CollaborationConsumer.collaborator_change` (consumers.py lines 90-113):
copy the last change before any stripping (`deepcopy(changes[-1])`), strip
`username` and pop `time` from every record for persistence, attach
`userRoomId` to the copied last change, then bulk-append the records and
broadcast the single prepared change, concurrently. -/
def collaborator_change (user_room_id room_name eventtype : String)
    (changes : List ChangeRec) : List Effect :=
  let collaborator_to_send := changes.getLast?.getD []
  let records := changes.map (fun change =>
    ({ room_name := room_name, event_type := eventtype,
       user_pseudonym := user_room_id, created_at := getKey change "time",
       content := LogContent.changeRec (delKey (delKey change "username") "time") }
      : LogRecord))
  records.map Effect.logAppend ++
    [Effect.sendEvent eventtype
      (Payload.changeList [setKey collaborator_to_send "userRoomId" user_room_id])]

/-- `CollaborationConsumer.disconnect` (consumers.py lines 79-88): unless the
close code is the distinguished 3000, broadcast `collaborator_left` and leave
the broadcast group; then always run the transport-level teardown. -/
def disconnect_effects (user_room_id : String) (code : Int) : List Effect :=
  (if code ≠ 3000 then
    [ Effect.sendEvent "collaborator_left" (Payload.collaborator user_room_id),
      Effect.groupDiscard ]
  else []) ++ [Effect.closeConn code]

/-- `CollaborationConsumer.connect` (consumers.py lines 43-77), given the
configuration toggle and the authorization collaborator's answers.  On the
rejected path the connection is accepted, a `login_required` notification is
sent, and the handler terminates through `disconnect(3000)`; otherwise the
session joins the room's broadcast group and the connection is accepted. -/
def connect_effects (allow_anonymous authenticated authorized : Bool)
    (user_room_id : String) : List Effect :=
  if !allow_anonymous && !authenticated && !authorized then
    [Effect.acceptConn, Effect.sendJson "login_required"] ++
      disconnect_effects user_room_id 3000
  else
    [Effect.groupAdd, Effect.acceptConn]

/-- An outbound broadcast envelope as built by `send_event` (consumers.py
lines 174-185): the notification plus the sending connection's channel name. -/
structure Envelope where
  eventtype : String
  payload : Payload
  sender : String
  deriving DecidableEq, Repr

/-- `send_event`'s envelope construction: the sender field is the originating
session's channel name. -/
def send_event_envelope (self_channel eventtype : String) (payload : Payload) :
    Envelope :=
  ⟨eventtype, payload, self_channel⟩

/-- `CollaborationConsumer.notify_client` (consumers.py lines 187-193): a
session forwards a received envelope to its attached client iff the envelope's
sender differs from its own channel name. -/
def notify_client (self_channel : String) (env : Envelope) : Bool :=
  env.sender != self_channel

/-- Group multicast delivery: the channel layer hands the envelope to every
session registered in the group; the sessions that actually forward it to
their clients are those whose `notify_client` check passes. -/
def group_deliver (group : List String) (env : Envelope) : List String :=
  group.filter (fun ch => notify_client ch env)

/-! Helper lemmas about dict operations. -/

/-- Deleting a key removes it: looking it up afterwards fails. -/
lemma getKey_delKey_self (c : ChangeRec) (k : String) :
    getKey (delKey c k) k = none := by
  induction c with
  | nil => rfl
  | cons p rest ih =>
    by_cases hp : p.1 = k
    · have hstep : delKey (p :: rest) k = delKey rest k := by
        simp [delKey, hp]
      rw [hstep]
      exact ih
    · have hstep : delKey (p :: rest) k = p :: delKey rest k := by
        simp [delKey, hp]
      have hne : (p.1 == k) = false := by simp [hp]
      rw [hstep]
      simp only [getKey, List.find?_cons, hne]
      exact ih

/-- Deleting some other key preserves the absence of a key. -/
lemma getKey_delKey_of_none (c : ChangeRec) (k k' : String)
    (h : getKey c k = none) : getKey (delKey c k') k = none := by
  induction c with
  | nil => rfl
  | cons p rest ih =>
    by_cases hpk : p.1 = k
    · simp [getKey, hpk] at h
    · have hrest : getKey rest k = none := by simpa [getKey, hpk] using h
      by_cases hpk' : p.1 = k'
      · simpa [delKey, hpk'] using ih hrest
      · simpa [delKey, getKey, hpk', hpk] using ih hrest

/-! Claims about the handlers. -/

/-- Claim C6: `full_sync` is a thin alias for the `elements_changed` handler:
invoked with a room and element collection it produces exactly the same
effects — one broadcast to the room and one log append — and never performs a
room snapshot write, so the persisted Room snapshot is unchanged. -/
theorem C6_full_sync_is_elements_changed (user_room_id room_name eventtype :
    String) (elements : List Element) :
    full_sync user_room_id room_name eventtype elements
      = elements_changed user_room_id room_name eventtype elements ∧
    full_sync user_room_id room_name eventtype elements
      = [ Effect.sendEvent eventtype (Payload.elems elements),
          Effect.logAppend ⟨room_name, eventtype, user_room_id, none,
            LogContent.elems elements⟩ ] ∧
    (∀ n es, Effect.roomWrite n es ∉
      full_sync user_room_id room_name eventtype elements) := by
  refine ⟨rfl, rfl, ?_⟩
  intro n es h
  simp [full_sync, elements_changed] at h

/-- Claim C7 counterexample: the outbound broadcast is built from a deep copy
of the last change taken before the stripping loop runs, so it still carries
the client-supplied `username`.  Concrete input: one change
`{username: alice, x: 0}` — the persisted record content is `{x: 0}` but the
broadcast change is `{username: alice, x: 0, userRoomId: u1}`, which contains
the `username` key. -/
theorem C7_username_broadcast_counterexample :
    collaborator_change "u1" "r" "collaborator_change"
        [[("username", "alice"), ("x", "0")]]
      = [ Effect.logAppend ⟨"r", "collaborator_change", "u1", none,
            LogContent.changeRec [("x", "0")]⟩,
          Effect.sendEvent "collaborator_change"
            (Payload.changeList
              [[("username", "alice"), ("x", "0"), ("userRoomId", "u1")]]) ] ∧
    getKey [("username", "alice"), ("x", "0"), ("userRoomId", "u1")] "username"
      = some "alice" := by
  exact ⟨rfl, rfl⟩

/-- Claim C7 as amended: the client-supplied `username` is removed from every
change record before persisting — no persisted log record content contains a
`username` key — while the outbound broadcast is built from a copy of the last
record taken before stripping, with `userRoomId` attached (so it retains
whatever `username` the client sent). -/
theorem C7_username_stripped_for_persistence (user_room_id room_name
    eventtype : String) (changes : List ChangeRec) (lastc : ChangeRec)
    (hlast : changes.getLast? = some lastc) :
    (∀ lr c, Effect.logAppend lr ∈
        collaborator_change user_room_id room_name eventtype changes →
      lr.content = LogContent.changeRec c → getKey c "username" = none) ∧
    Effect.sendEvent eventtype
        (Payload.changeList [setKey lastc "userRoomId" user_room_id])
      ∈ collaborator_change user_room_id room_name eventtype changes := by
  constructor
  · intro lr c hmem hcontent
    unfold collaborator_change at hmem
    rcases List.mem_append.mp hmem with hmap | hsend
    · rcases List.mem_map.mp hmap with ⟨lr0, hlr0, heq⟩
      obtain rfl : lr0 = lr := by injection heq
      rcases List.mem_map.mp hlr0 with ⟨change, hch, hg⟩
      rw [← hg] at hcontent
      have hc : delKey (delKey change "username") "time" = c := by
        injection hcontent
      rw [← hc]
      exact getKey_delKey_of_none _ _ _ (getKey_delKey_self change "username")
    · rcases List.mem_singleton.mp hsend with h
      cases h
  · unfold collaborator_change
    rw [hlast]
    exact List.mem_append.mpr (Or.inr (List.mem_singleton.mpr rfl))

/-- Witness for the amended C7 at a concrete change batch. -/
theorem C7_username_stripped_witness :
    ([[("username", "alice"), ("x", "0")]] : List ChangeRec).getLast?
      = some [("username", "alice"), ("x", "0")] ∧
    ((∀ lr c, Effect.logAppend lr ∈ collaborator_change "u1" "r"
          "collaborator_change" [[("username", "alice"), ("x", "0")]] →
        lr.content = LogContent.changeRec c → getKey c "username" = none) ∧
      Effect.sendEvent "collaborator_change"
          (Payload.changeList
            [setKey [("username", "alice"), ("x", "0")] "userRoomId" "u1"])
        ∈ collaborator_change "u1" "r" "collaborator_change"
            [[("username", "alice"), ("x", "0")]]) :=
  ⟨rfl, C7_username_stripped_for_persistence "u1" "r" "collaborator_change"
    [[("username", "alice"), ("x", "0")]] [("username", "alice"), ("x", "0")]
    rfl⟩

/-- Claim C8: echo suppression.  For an envelope built by `send_event`, the
originating session never forwards its own notification to its client, while
every other session registered in the room's group does. -/
theorem C8_no_echo_to_sender (group : List String)
    (self_channel ch eventtype : String) (p : Payload) (hmem : ch ∈ group) :
    self_channel ∉ group_deliver group
        (send_event_envelope self_channel eventtype p) ∧
    (ch ≠ self_channel → ch ∈ group_deliver group
        (send_event_envelope self_channel eventtype p)) := by
  constructor
  · intro hself
    have := (List.mem_filter.mp hself).2
    simp [notify_client, send_event_envelope] at this
  · intro hne
    refine List.mem_filter.mpr ⟨hmem, ?_⟩
    simpa [notify_client, send_event_envelope] using hne.symm

/-- Witness for C8: in a two-session room, the sender `c1` does not deliver
its own event while the peer `c2` does. -/
theorem C8_no_echo_to_sender_witness :
    ("c2" ∈ ["c1", "c2"]) ∧
    ("c1" ∉ group_deliver ["c1", "c2"]
        (send_event_envelope "c1" "elements_changed" (Payload.elems [])) ∧
      ("c2" ≠ "c1" → "c2" ∈ group_deliver ["c1", "c2"]
        (send_event_envelope "c1" "elements_changed" (Payload.elems [])))) :=
  ⟨by decide, C8_no_echo_to_sender ["c1", "c2"] "c1" "c2" "elements_changed"
    (Payload.elems []) (by decide)⟩

/-- Claim C9: with anonymous access disabled, a connection attempt by a user
who is neither authenticated nor authorized yields exactly the sequence
accept, one `login_required` notification, close with the distinguished code
3000 — and in particular no `collaborator_left` broadcast and no registration
in the room's broadcast group. -/
theorem C9_unauthorized_connect_rejected (allow_anonymous authenticated
    authorized : Bool) (user_room_id : String)
    (h1 : allow_anonymous = false) (h2 : authenticated = false)
    (h3 : authorized = false) :
    connect_effects allow_anonymous authenticated authorized user_room_id
      = [Effect.acceptConn, Effect.sendJson "login_required",
         Effect.closeConn 3000] ∧
    (connect_effects allow_anonymous authenticated authorized
        user_room_id).count (Effect.sendJson "login_required") = 1 ∧
    (∀ p, Effect.sendEvent "collaborator_left" p ∉
      connect_effects allow_anonymous authenticated authorized user_room_id) ∧
    Effect.groupAdd ∉
      connect_effects allow_anonymous authenticated authorized user_room_id := by
  subst h1 h2 h3
  refine ⟨rfl, rfl, ?_, ?_⟩
  · intro p hp
    simp [connect_effects, disconnect_effects] at hp
  · intro hp
    simp [connect_effects, disconnect_effects] at hp

/-- Witness for C9 at a concrete rejected connection. -/
theorem C9_unauthorized_connect_rejected_witness :
    connect_effects false false false "u1"
      = [Effect.acceptConn, Effect.sendJson "login_required",
         Effect.closeConn 3000] :=
  (C9_unauthorized_connect_rejected false false false "u1" rfl rfl rfl).1

/-! The replay engine. -/

/-- A stored event-log row as the replay engine reads it back: the
auto-incremented primary key `id` assigned at insertion, plus the record
fields including the `created_at` timestamp. -/
structure StoredRecord where
  id : Nat
  room_name : String
  event_type : String
  user_pseudonym : String
  created_at : Int
  content : LogContent
  deriving DecidableEq, Repr

/-- `get_log_record_ids_for_room` (consumers.py lines 198-203): the ids of the
room's log records, ordered ascending by id (`order_by('id')`); since the sort
key is the id itself, sorting the rows by id and projecting equals projecting
and sorting the ids. -/
def get_log_record_ids_for_room (records : List StoredRecord)
    (room_name : String) : List Nat :=
  List.insertionSort (· ≤ ·)
    ((records.filter (fun r => r.room_name == room_name)).map (fun r => r.id))

/-- `ReplayConsumer.wait_then_send` (consumers.py lines 286-294): while ids
remain, pop the front id (`self.log_record_ids.pop(0)`), emit that record's
event, sleep the configured delay and reschedule; when none remain, emit
`pause_replay` and stop.  Modelled as the sequence of record ids emitted. -/
def wait_then_send : List Nat → List Nat
  | [] => []
  | i :: rest => i :: wait_then_send rest

/-- The playback loop emits the loaded ids in list order. -/
lemma wait_then_send_emits_in_order (l : List Nat) : wait_then_send l = l := by
  induction l with
  | nil => rfl
  | cons i rest ih => simp [wait_then_send, ih]

/-- The whole replay playback of a room: the loop run on the id list fetched
by `init_replay`. -/
def replay_emissions (records : List StoredRecord) (room_name : String) :
    List Nat :=
  wait_then_send (get_log_record_ids_for_room records room_name)

/-- Changing every row's `created_at` leaves the filtered id projection
untouched. -/
lemma ids_ignore_created_at (records : List StoredRecord) (room_name : String)
    (stamp : StoredRecord → Int) :
    ((records.map (fun r => { r with created_at := stamp r })).filter
        (fun r => r.room_name == room_name)).map (fun r => r.id)
      = (records.filter (fun r => r.room_name == room_name)).map
          (fun r => r.id) := by
  induction records with
  | nil => rfl
  | cons r rest ih =>
    by_cases h : (r.room_name == room_name) = true
    · simp [List.filter_cons, h, ih]
    · simp [List.filter_cons, h, ih]

/-- Claim C10: the replay playback emits a room's log records in ascending
record-id order — the emission sequence is sorted by id, it is unaffected by
arbitrary rewrites of the stored `created_at` timestamps, and on the concrete
room with records of ids 1, 2, 3 inserted in that order (with decreasing
timestamps) it emits 1 then 2 then 3. -/
theorem C10_replay_ascending_id_order (records : List StoredRecord)
    (room_name : String) (stamp : StoredRecord → Int) :
    (replay_emissions records room_name).Sorted (· ≤ ·) ∧
    replay_emissions (records.map (fun r => { r with created_at := stamp r }))
        room_name = replay_emissions records room_name ∧
    replay_emissions
        [⟨1, "r", "elements_changed", "u", 30, LogContent.elems []⟩,
         ⟨2, "r", "elements_changed", "u", 20, LogContent.elems []⟩,
         ⟨3, "r", "elements_changed", "u", 10, LogContent.elems []⟩] "r"
      = [1, 2, 3] := by
  refine ⟨?_, ?_, by decide⟩
  · unfold replay_emissions
    rw [wait_then_send_emits_in_order]
    exact List.sorted_insertionSort (· ≤ ·) _
  · unfold replay_emissions get_log_record_ids_for_room
    rw [wait_then_send_emits_in_order, wait_then_send_emits_in_order,
      ids_ignore_created_at]

end INFOBoard
